import Mathlib

/-!
Verification of the PhishGuard behavioral-telemetry pipeline.

The server side (src/server.ts) is modelled by `scoreReport`, `storeSet` and
`handleMessage`; the client-side sampler hook (src/useBehaviorMonitor.ts) is
modelled by the state machine `MonitorState` / `step`.  JavaScript numbers are
modelled as exact rationals (and reals where a square root appears); an absent
JSON field is modelled as `none`, and a thrown exception as `Except.error`.
-/

namespace PhishGuard

/-! ### Server data model (src/server.ts) -/

/-- A JSON value as the scorer reads it: either a number, or a non-numeric
value (string, boolean, null, object, array) abstracted by its JavaScript
ToNumber image — `some q` when the value coerces to the number `q` (a numeric
string, a boolean, null), `none` when it coerces to NaN (a non-numeric
string, an object, a multi-element array).  Relational comparison on JSON
values never throws in JavaScript; with a NaN operand it yields false. -/
inductive JsVal where
  | num (q : ℚ)
  | nonNum (coerced : Option ℚ)
deriving DecidableEq

/-- Fields that may appear in a message payload; `none` models an absent
field (`undefined`). -/
structure Payload where
  typingSpeed : Option JsVal
  mouseJitter : Option JsVal
  sessionToken : Option String
  token : Option String
deriving DecidableEq

/-- A parsed inbound JSON message: optional type tag and optional payload object. -/
structure InMsg where
  type : Option String
  payload : Option Payload
deriving DecidableEq

/-- The record stored by the SESSION_INIT branch of server.ts. -/
structure SessionRecord where
  startTime : ℤ
  ip : String
  userAgent : String
deriving DecidableEq

/-- The downstream RISK_UPDATE payload. -/
structure RiskUpdate where
  riskScore : ℕ
  reason : String
deriving DecidableEq

/-- JavaScript comparison `x > c` on a possibly-absent JSON value: the value
is coerced with ToNumber and compared; an absent field (`undefined`) or any
value coercing to NaN compares false.  The comparison is total — it never
throws. -/
def jsGt (x : Option JsVal) (c : ℚ) : Bool :=
  match x with
  | some (JsVal.num v) => decide (c < v)
  | some (JsVal.nonNum (some v)) => decide (c < v)
  | some (JsVal.nonNum none) => false
  | none => false

/-- The scorer of server.ts lines 27-33: start at 0, add 30 when
`typingSpeed > 500`, add 40 when `mouseJitter > 0.8`, and report
anomalous when the result exceeds 50. -/
def scoreReport (typingSpeed mouseJitter : Option JsVal) : RiskUpdate :=
  let riskScore : ℕ := 0
  let riskScore := if jsGt typingSpeed 500 then riskScore + 30 else riskScore
  let riskScore := if jsGt mouseJitter (4/5) then riskScore + 40 else riskScore
  { riskScore := riskScore
    reason := if 50 < riskScore then "Anomalous interaction detected" else "Normal" }

/-- The in-memory session map, as an insertion-ordered association list.
The key is `Option String` because server.ts reads `data.payload.token`
without checking it, and a JavaScript Map accepts `undefined` as a key. -/
abbrev SessionStore := List (Option String × SessionRecord)

/-- `Map.set` semantics: replace the value in place when the key is present,
append a fresh entry otherwise. -/
def storeSet (s : SessionStore) (k : Option String) (v : SessionRecord) : SessionStore :=
  match s with
  | [] => [(k, v)]
  | (k0, v0) :: rest => if k0 = k then (k, v) :: rest else (k0, v0) :: storeSet rest k v

/-- `Map.get` semantics on the association list. -/
def lookupStore (s : SessionStore) (k : Option String) : Option SessionRecord :=
  match s with
  | [] => none
  | (k0, v0) :: rest => if k0 = k then some v0 else lookupStore rest k

/-- The record server.ts builds on SESSION_INIT (mock IP and user agent). -/
def mkRecord (now : ℤ) : SessionRecord :=
  { startTime := now, ip := "192.168.1.1", userAgent := "Mozilla/5.0..." }

/-- The `ws.on message` handler of server.ts lines 20-44.  `parsed = none`
models a message `JSON.parse` rejects (the parse is not guarded, so the
handler throws, modelled as `Except.error`); destructuring the payload of a
BEHAVIOR_REPORT or reading `.token` on SESSION_INIT when `payload` is absent
also throws.  The result carries the updated store and the message sent, if
any. -/
def handleMessage (now : ℤ) (parsed : Option InMsg) (sessions : SessionStore) :
    Except Unit (SessionStore × Option RiskUpdate) :=
  match parsed with
  | none => Except.error ()
  | some data =>
    match (if data.type = some "BEHAVIOR_REPORT" then
            match data.payload with
            | none => Except.error ()
            | some p => Except.ok (some (scoreReport p.typingSpeed p.mouseJitter))
          else Except.ok none : Except Unit (Option RiskUpdate)) with
    | Except.error e => Except.error e
    | Except.ok sent =>
      if data.type = some "SESSION_INIT" then
        match data.payload with
        | none => Except.error ()
        | some p => Except.ok (storeSet sessions p.token (mkRecord now), sent)
      else Except.ok (sessions, sent)

/-- Replay of a sequence of SESSION_INIT messages (token and arrival time)
against an initially empty store. -/
def runInits (inits : List (Option String × ℤ)) : SessionStore :=
  inits.foldl (fun st i => storeSet st i.1 (mkRecord i.2)) []

/-- A parsed BEHAVIOR_REPORT message carrying the given payload. -/
def reportMsg (p : Payload) : InMsg :=
  { type := some "BEHAVIOR_REPORT", payload := some p }

/-- The same payload with absent numeric fields replaced by explicit zeros;
fields that are present (numeric or not) are left as they are. -/
def zeroDefaulted (p : Payload) : Payload :=
  { p with typingSpeed := some (p.typingSpeed.getD (JsVal.num 0))
           mouseJitter := some (p.mouseJitter.getD (JsVal.num 0)) }

/-! ### Client sampler data model (src/useBehaviorMonitor.ts)

The hook is modelled as a state machine.  `MEvent.setActive` models the
`isActive` prop changing (the effect re-runs, attaching or detaching the
listeners; the refs and the published data survive, since the component stays
mounted).  `MEvent.keyDown` and `MEvent.mouseMove` model the two listeners,
which only run while monitoring is active. -/

/-- An absolute pointer position (clientX, clientY). -/
structure Point where
  x : ℚ
  y : ℚ
deriving DecidableEq

/-- The published sample: typing speed (mean inter-key gap, ms), pointer
jitter, and the capture timestamp. -/
structure BehaviorData where
  typingSpeed : ℚ
  mouseJitter : ℝ
  timestamp : ℤ

/-- The complete mutable state of the hook: the active flag, the three refs
(lastKeyTime, keyIntervals, mousePositions) and the published data. -/
structure MonitorState where
  isActive : Bool
  lastKeyTime : ℤ
  keyIntervals : List ℤ
  mousePositions : List Point
  data : BehaviorData

/-- Input events consumed by the hook. -/
inductive MEvent where
  | setActive (b : Bool)
  | keyDown (now : ℤ)
  | mouseMove (x y : ℚ) (now : ℤ)

/-- The push-then-shift idiom of lines 21-22 and 34-35: append, and drop the
oldest element when the capacity is exceeded. -/
def pushWindow {α : Type} (cap : ℕ) (xs : List α) (a : α) : List α :=
  let ys := xs ++ [a]
  if cap < ys.length then ys.tail else ys

/-- The suffix of at most `cap` most recent elements. -/
def lastWindow {α : Type} (cap : ℕ) (l : List α) : List α :=
  l.drop (l.length - cap)

/-- Mean of the interval window, 0 when it is empty (lines 26-28). -/
def avgOf (l : List ℤ) : ℚ :=
  if 0 < l.length then (l.sum : ℚ) / (l.length : ℚ) else 0

/-- The inter-keystroke gaps of a timestamp sequence. -/
def gapsOf : List ℤ → List ℤ
  | a :: b :: rest => (b - a) :: gapsOf (b :: rest)
  | _ => []

/-- Euclidean distance between consecutive pointer positions (lines 42-45). -/
noncomputable def stepLen (p q : Point) : ℝ :=
  Real.sqrt (((q.x - p.x : ℚ) : ℝ) ^ 2 + ((q.y - p.y : ℚ) : ℝ) ^ 2)

/-- The delta loop of lines 40-47: one step length per consecutive pair. -/
noncomputable def stepLens : List Point → List ℝ
  | p :: q :: rest => stepLen p q :: stepLens (q :: rest)
  | _ => []

/-- The jitter computation of lines 38-50: 0 with fewer than 3 positions,
otherwise the mean absolute deviation of the step lengths from their mean. -/
noncomputable def jitterOf (ps : List Point) : ℝ :=
  if 2 < ps.length then
    let deltas := stepLens ps
    let avg := deltas.sum / (deltas.length : ℝ)
    (deltas.map (fun d => |d - avg|)).sum / (deltas.length : ℝ)
  else 0

/-- Step lengths as the spec words them: the Euclidean distance between each
consecutive pair of window positions. -/
noncomputable def specStepLens (ps : List Point) : List ℝ :=
  List.zipWith stepLen ps ps.tail

/-- Mean absolute deviation of a list of values from their own mean, as the
spec words it. -/
noncomputable def meanAbsDev (l : List ℝ) : ℝ :=
  (l.map (fun d => |d - l.sum / (l.length : ℝ)|)).sum / (l.length : ℝ)

/-- One transition of the hook.  Key and mouse events are ignored while the
listeners are detached; `setActive` only flips the flag, because nothing in
the hook clears the refs when the flag changes. -/
noncomputable def step (s : MonitorState) : MEvent → MonitorState
  | MEvent.setActive b => { s with isActive := b }
  | MEvent.keyDown now =>
      if s.isActive then
        let keyIntervals :=
          if s.lastKeyTime ≠ 0 then pushWindow 10 s.keyIntervals (now - s.lastKeyTime)
          else s.keyIntervals
        { s with lastKeyTime := now
                 keyIntervals := keyIntervals
                 data := { s.data with typingSpeed := avgOf keyIntervals, timestamp := now } }
      else s
  | MEvent.mouseMove x y now =>
      if s.isActive then
        let mousePositions := pushWindow 20 s.mousePositions { x := x, y := y }
        { s with mousePositions := mousePositions
                 data := { s.data with mouseJitter := jitterOf mousePositions
                                       timestamp := now } }
      else s

/-- The state at mount: refs at their `useRef` initial values, published data
zeroed (line 10). -/
def initState (isActive : Bool) (t0 : ℤ) : MonitorState :=
  { isActive := isActive, lastKeyTime := 0, keyIntervals := [], mousePositions := []
    data := { typingSpeed := 0, mouseJitter := 0, timestamp := t0 } }

/-- Replay a list of events from a starting state. -/
noncomputable def run (s : MonitorState) (evts : List MEvent) : MonitorState :=
  evts.foldl step s

/-- An active session fed only keystrokes, at the given timestamps. -/
noncomputable def runKeys (ts : List ℤ) : MonitorState :=
  run (initState true 0) (ts.map MEvent.keyDown)

/-- An active session fed only pointer moves, at the given positions. -/
noncomputable def runMouse (ps : List (ℚ × ℚ)) : MonitorState :=
  run (initState true 0) (ps.map (fun p => MEvent.mouseMove p.1 p.2 0))

/-- A trace that activates monitoring, records two keystrokes, then
deactivates and reactivates. -/
def reactivationTrace : List MEvent :=
  [ MEvent.setActive true, MEvent.keyDown 1000, MEvent.keyDown 1200,
    MEvent.setActive false, MEvent.setActive true ]

/-! ### Theorems about the scorer -/

/-- C1: the scorer adds 30 when typingSpeed exceeds 500 and 40 when mouseJitter
exceeds 0.8, reporting anomalous exactly when the sum exceeds 50; in particular
score(600,0) = (30, Normal), score(0,0.9) = (40, Normal),
score(600,0.9) = (70, Anomalous interaction detected), score(0,0) = (0, Normal). -/
theorem C1_scorer_rule :
    (∀ t j : ℚ, scoreReport (some (JsVal.num t)) (some (JsVal.num j)) =
      { riskScore := (if 500 < t then 30 else 0) + (if (4/5 : ℚ) < j then 40 else 0)
        reason := if 50 < (if 500 < t then 30 else 0) + (if (4/5 : ℚ) < j then 40 else 0)
          then "Anomalous interaction detected" else "Normal" }) ∧
    scoreReport (some (JsVal.num 600)) (some (JsVal.num 0)) =
      { riskScore := 30, reason := "Normal" } ∧
    scoreReport (some (JsVal.num 0)) (some (JsVal.num (9/10))) =
      { riskScore := 40, reason := "Normal" } ∧
    scoreReport (some (JsVal.num 600)) (some (JsVal.num (9/10))) =
      { riskScore := 70, reason := "Anomalous interaction detected" } ∧
    scoreReport (some (JsVal.num 0)) (some (JsVal.num 0)) =
      { riskScore := 0, reason := "Normal" } := by
  refine ⟨?_, by norm_num [scoreReport, jsGt], by norm_num [scoreReport, jsGt],
    by norm_num [scoreReport, jsGt], by norm_num [scoreReport, jsGt]⟩
  intro t j
  by_cases h1 : 500 < t <;> by_cases h2 : (4/5 : ℚ) < j <;>
    simp [scoreReport, jsGt, h1, h2]

/-- C7: the thresholds are strict greater-than comparisons: at typingSpeed
exactly 500 the 30-point term is not added, at mouseJitter exactly 0.8 the
40-point term is not added, and score(500, 0.8) = (0, Normal). -/
theorem C7_strict_thresholds :
    (∀ j, (scoreReport (some (JsVal.num 500)) j).riskScore =
      if jsGt j (4/5) then 40 else 0) ∧
    (∀ t, (scoreReport t (some (JsVal.num (4/5)))).riskScore =
      if jsGt t 500 then 30 else 0) ∧
    scoreReport (some (JsVal.num 500)) (some (JsVal.num (4/5))) =
      { riskScore := 0, reason := "Normal" } := by
  refine ⟨?_, ?_, by norm_num [scoreReport, jsGt]⟩
  · intro j
    have h : jsGt (some (JsVal.num 500)) 500 = false := by norm_num [jsGt]
    cases hj : jsGt j (4/5) <;> simp [scoreReport, h, hj]
  · intro t
    have h : jsGt (some (JsVal.num (4/5))) (4/5) = false := by norm_num [jsGt]
    cases ht : jsGt t 500 <;> simp [scoreReport, h, ht]

/-- C3 counterexample: an inbound message that JSON.parse rejects makes the
handler throw (the parse at server.ts line 21 is not guarded by try/catch),
so the claim that every malformed report is handled without throwing fails. -/
theorem C3_counterexample : handleMessage 0 none [] = Except.error () := rfl

/-- C3 amended: a parseable BEHAVIOR_REPORT whose payload object is present
never makes the scorer throw, whatever its typingSpeed/mouseJitter fields
hold — numeric, non-numeric or missing (JavaScript relational comparison on
such values yields false on NaN rather than throwing) — and missing numeric
fields are treated as 0, so the produced RiskUpdate equals the one produced
with those fields set to 0; an unparseable message still throws, as does a
BEHAVIOR_REPORT with no payload object at all (destructuring undefined). -/
theorem C3_lenient_fields (now : ℤ) (store : SessionStore) (p : Payload) :
    handleMessage now (some (reportMsg p)) store =
      Except.ok (store, some (scoreReport p.typingSpeed p.mouseJitter)) ∧
    handleMessage now (some (reportMsg p)) store =
      handleMessage now (some (reportMsg (zeroDefaulted p))) store ∧
    handleMessage now (some { type := some "BEHAVIOR_REPORT", payload := none }) store =
      Except.error () := by
  refine ⟨by simp [handleMessage, reportMsg], ?_, by simp [handleMessage]⟩
  cases ht : p.typingSpeed <;> cases hm : p.mouseJitter <;>
    simp [handleMessage, reportMsg, zeroDefaulted, scoreReport, jsGt, ht, hm] <;> norm_num

/-- C9: a parseable message whose type tag is neither BEHAVIOR_REPORT nor
SESSION_INIT is ignored without error: no exception, no outbound message, and
the session store is unchanged. -/
theorem C9_unknown_type_ignored (now : ℤ) (data : InMsg) (store : SessionStore)
    (h1 : data.type ≠ some "BEHAVIOR_REPORT") (h2 : data.type ≠ some "SESSION_INIT") :
    handleMessage now (some data) store = Except.ok (store, none) := by
  simp [handleMessage, h1, h2]

/-- C9 witness: a concrete PING message against an empty store is ignored. -/
theorem C9_unknown_type_ignored_witness :
    handleMessage 0 (some { type := some "PING", payload := none }) [] =
      Except.ok ([], none) :=
  C9_unknown_type_ignored 0 { type := some "PING", payload := none } []
    (by decide) (by decide)

/-- C10: the RISK_UPDATE produced for a behavior report depends only on
typingSpeed and mouseJitter: two reports agreeing on those fields but
differing in sessionToken, handled at different times against different
stores, produce identical downstream messages, and the store is not read or
written by the report branch. -/
theorem C10_token_noninterference (n1 n2 : ℤ) (p q : Payload)
    (s1 s2 : SessionStore) (hts : p.typingSpeed = q.typingSpeed)
    (hmj : p.mouseJitter = q.mouseJitter) :
    Except.map Prod.snd (handleMessage n1 (some (reportMsg p)) s1) =
      Except.map Prod.snd (handleMessage n2 (some (reportMsg q)) s2) ∧
    handleMessage n1 (some (reportMsg p)) s1 =
      Except.ok (s1, some (scoreReport p.typingSpeed p.mouseJitter)) := by
  constructor
  · simp [handleMessage, reportMsg, Except.map, hts, hmj]
  · simp [handleMessage, reportMsg]

/-- C10 witness: concrete reports with tokens a and b, equal metrics, and
different stores produce the same RISK_UPDATE. -/
theorem C10_token_noninterference_witness :
    Except.map Prod.snd
        (handleMessage 1 (some (reportMsg
          ⟨some (JsVal.num 100), some (JsVal.num 0), some "a", none⟩)) []) =
      Except.map Prod.snd
        (handleMessage 2 (some (reportMsg
          ⟨some (JsVal.num 100), some (JsVal.num 0), some "b", none⟩))
          [(some "x", mkRecord 5)]) ∧
    handleMessage 1 (some (reportMsg
        ⟨some (JsVal.num 100), some (JsVal.num 0), some "a", none⟩)) [] =
      Except.ok ([], some (scoreReport (some (JsVal.num 100)) (some (JsVal.num 0)))) :=
  C10_token_noninterference 1 2 ⟨some (JsVal.num 100), some (JsVal.num 0), some "a", none⟩
    ⟨some (JsVal.num 100), some (JsVal.num 0), some "b", none⟩ [] [(some "x", mkRecord 5)]
    rfl rfl

/-! ### Session store lemmas -/

theorem lookupStore_storeSet_self (s : SessionStore) (k : Option String)
    (v : SessionRecord) : lookupStore (storeSet s k v) k = some v := by
  induction s with
  | nil => simp [storeSet, lookupStore]
  | cons e rest ih =>
    obtain ⟨k0, v0⟩ := e
    by_cases h : k0 = k <;> simp [storeSet, lookupStore, h, ih]

theorem storeSet_map_fst (s : SessionStore) (k : Option String) (v : SessionRecord) :
    (storeSet s k v).map Prod.fst =
      if k ∈ s.map Prod.fst then s.map Prod.fst else s.map Prod.fst ++ [k] := by
  induction s with
  | nil => simp [storeSet]
  | cons e rest ih =>
    obtain ⟨k0, v0⟩ := e
    by_cases h : k0 = k
    · subst h; simp [storeSet]
    · have h2 : ¬(k = k0) := fun hk => h hk.symm
      by_cases hk : k ∈ rest.map Prod.fst <;>
        simp [storeSet, h, h2, hk, ih]

theorem storeSet_keys_nodup (s : SessionStore) (k : Option String) (v : SessionRecord)
    (h : (s.map Prod.fst).Nodup) : ((storeSet s k v).map Prod.fst).Nodup := by
  rw [storeSet_map_fst]
  by_cases hk : k ∈ s.map Prod.fst
  · simpa [hk] using h
  · simp [hk, List.nodup_append, h]

theorem storeSet_keys_toFinset (s : SessionStore) (k : Option String) (v : SessionRecord) :
    ((storeSet s k v).map Prod.fst).toFinset = insert k (s.map Prod.fst).toFinset := by
  rw [storeSet_map_fst]
  by_cases hk : k ∈ s.map Prod.fst
  · rw [if_pos hk, Finset.insert_eq_self.mpr (by simpa using hk)]
  · rw [if_neg hk]
    ext a
    simp [or_comm]

theorem runInits_aux_keys_nodup (inits : List (Option String × ℤ)) :
    ∀ acc : SessionStore, (acc.map Prod.fst).Nodup →
      ((inits.foldl (fun st i => storeSet st i.1 (mkRecord i.2)) acc).map Prod.fst).Nodup := by
  induction inits with
  | nil => intro acc h; simpa using h
  | cons i rest ih =>
    intro acc h
    exact ih (storeSet acc i.1 (mkRecord i.2)) (storeSet_keys_nodup acc i.1 (mkRecord i.2) h)

theorem runInits_aux_keys_toFinset (inits : List (Option String × ℤ)) :
    ∀ acc : SessionStore,
      ((inits.foldl (fun st i => storeSet st i.1 (mkRecord i.2)) acc).map Prod.fst).toFinset =
        (acc.map Prod.fst).toFinset ∪ (inits.map Prod.fst).toFinset := by
  induction inits with
  | nil => intro acc; simp
  | cons i rest ih =>
    intro acc
    rw [List.foldl_cons, ih (storeSet acc i.1 (mkRecord i.2)), storeSet_keys_toFinset]
    rw [List.map_cons, List.toFinset_cons, Finset.insert_union, Finset.union_insert]

/-- C8: session-init is last-writer-wins: setting a token that already exists
overwrites its record in place, and after replaying any sequence of inits the
store size equals the number of distinct tokens seen. -/
theorem C8_last_writer_wins :
    (∀ (s : SessionStore) (k : Option String) (v : SessionRecord),
      lookupStore (storeSet s k v) k = some v) ∧
    (∀ inits : List (Option String × ℤ),
      (runInits inits).length = (inits.map Prod.fst).toFinset.card) := by
  refine ⟨lookupStore_storeSet_self, fun inits => ?_⟩
  have hnd : ((runInits inits).map Prod.fst).Nodup :=
    runInits_aux_keys_nodup inits [] (by simp)
  have hfs : ((runInits inits).map Prod.fst).toFinset = (inits.map Prod.fst).toFinset := by
    have := runInits_aux_keys_toFinset inits []
    simpa [runInits] using this
  calc (runInits inits).length
      = ((runInits inits).map Prod.fst).length := (List.length_map _ _).symm
    _ = ((runInits inits).map Prod.fst).toFinset.card := (List.toFinset_card_of_nodup hnd).symm
    _ = (inits.map Prod.fst).toFinset.card := by rw [hfs]

/-! ### Sliding-window lemmas -/

theorem lastWindow_length {α : Type} (cap : ℕ) (l : List α) :
    (lastWindow cap l).length = min cap l.length := by
  simp only [lastWindow, List.length_drop]
  omega

theorem pushWindow_lastWindow {α : Type} (cap : ℕ) (hcap : 0 < cap) (l : List α) (a : α) :
    pushWindow cap (lastWindow cap l) a = lastWindow cap (l ++ [a]) := by
  have hla : (l ++ [a]).length = l.length + 1 := by simp
  by_cases h : cap ≤ l.length
  · have hlen : (lastWindow cap l).length = cap := by rw [lastWindow_length]; omega
    have hcond : cap < (lastWindow cap l ++ [a]).length := by
      simp only [List.length_append, List.length_singleton, hlen]; omega
    have hidx : (l ++ [a]).length - cap ≤ l.length := by omega
    have hidx2 : 1 ≤ (lastWindow cap l).length := by omega
    simp only [pushWindow]
    rw [if_pos hcond, ← List.drop_one, List.drop_append_of_le_length hidx2, lastWindow,
      List.drop_drop, lastWindow, List.drop_append_of_le_length hidx]
    congr 2
    omega
  · have hlen : (lastWindow cap l).length = l.length := by rw [lastWindow_length]; omega
    have hcond : ¬ cap < (lastWindow cap l ++ [a]).length := by
      simp only [List.length_append, List.length_singleton, hlen]; omega
    simp only [pushWindow]
    rw [if_neg hcond]
    have h1 : l.length - cap = 0 := by omega
    have h2 : (l ++ [a]).length - cap = 0 := by omega
    rw [lastWindow, lastWindow, h1, h2, List.drop_zero, List.drop_zero]

theorem foldl_pushWindow {α : Type} (cap : ℕ) (hcap : 0 < cap) (l : List α) :
    List.foldl (pushWindow cap) [] l = lastWindow cap l := by
  induction l using List.reverseRecOn with
  | nil => simp [lastWindow]
  | append_singleton xs a ih =>
    rw [List.foldl_append, List.foldl_cons, List.foldl_nil, ih,
      pushWindow_lastWindow cap hcap]

/-- C6: both sliding windows (key-interval capacity 10, pointer capacity 20)
are FIFO and size-bounded: inserting capacity+1 elements into an empty window
leaves exactly the last capacity insertions in order, the first insertion is
gone, and no push ever grows a window beyond its capacity. -/
theorem C6_fifo_windows {α : Type} (cap : ℕ) (hcap : cap = 10 ∨ cap = 20)
    (l : List α) (hlen : l.length = cap + 1) :
    List.foldl (pushWindow cap) [] l = l.tail ∧
    (List.foldl (pushWindow cap) [] l).length = cap ∧
    (l.Nodup → ∀ a, l.head? = some a → a ∉ l.tail) ∧
    (∀ (xs : List α) (x : α), xs.length ≤ cap → (pushWindow cap xs x).length ≤ cap) := by
  have hc : 0 < cap := by rcases hcap with h | h <;> omega
  have h1 : List.foldl (pushWindow cap) [] l = l.tail := by
    rw [foldl_pushWindow cap hc, lastWindow, hlen]
    have : cap + 1 - cap = 1 := by omega
    rw [this, List.drop_one]
  refine ⟨h1, ?_, ?_, ?_⟩
  · rw [h1, List.length_tail, hlen]
    omega
  · intro hnd a ha
    cases l with
    | nil => simp at ha
    | cons b t =>
      simp only [List.head?_cons, Option.some.injEq] at ha
      subst ha
      simpa using (List.nodup_cons.mp hnd).1
  · intro xs x hxs
    simp only [pushWindow]
    by_cases h : cap < (xs ++ [x]).length
    · rw [if_pos h]
      simp only [List.length_tail, List.length_append, List.length_singleton]
      omega
    · rw [if_neg h]
      simp only [List.length_append, List.length_singleton] at h ⊢
      omega

/-- C6 witness: capacity 10 with eleven distinct insertions. -/
theorem C6_fifo_windows_witness :
    List.foldl (pushWindow 10) [] [ (0:ℕ), 1, 2, 3, 4, 5, 6, 7, 8, 9, 10 ] =
      [ (0:ℕ), 1, 2, 3, 4, 5, 6, 7, 8, 9, 10 ].tail ∧
    (List.foldl (pushWindow 10) [] [ (0:ℕ), 1, 2, 3, 4, 5, 6, 7, 8, 9, 10 ]).length = 10 ∧
    ([ (0:ℕ), 1, 2, 3, 4, 5, 6, 7, 8, 9, 10 ].Nodup →
      ∀ a, [ (0:ℕ), 1, 2, 3, 4, 5, 6, 7, 8, 9, 10 ].head? = some a →
        a ∉ [ (0:ℕ), 1, 2, 3, 4, 5, 6, 7, 8, 9, 10 ].tail) ∧
    (∀ (xs : List ℕ) (x : ℕ), xs.length ≤ 10 → (pushWindow 10 xs x).length ≤ 10) :=
  C6_fifo_windows 10 (Or.inl rfl) [ 0, 1, 2, 3, 4, 5, 6, 7, 8, 9, 10 ] (by decide)

/-! ### Reactivation does not reset the sampler state -/

/-- C2: the spec requires an inactive-to-active transition to reset both
windows and the last-keystroke timestamp, but the hook never clears its refs
when the flag changes.  Immediately after the reactivation in
`reactivationTrace` the key-interval window still holds the pre-transition
gap and the timestamp is still set, and the next keystroke is averaged
against the leaked gap (150) instead of producing the session-start value 0. -/
theorem C2_reactivation_leaks :
    (run (initState false 0) reactivationTrace).isActive = true ∧
    (run (initState false 0) reactivationTrace).keyIntervals = [ 200 ] ∧
    (run (initState false 0) reactivationTrace).lastKeyTime = 1200 ∧
    (run (initState false 0)
        (reactivationTrace ++ [ MEvent.keyDown 1300 ])).data.typingSpeed = 150 := by
  have h2 : (run (initState false 0) reactivationTrace).isActive = true := by decide
  have h3 : (run (initState false 0) reactivationTrace).keyIntervals = [ 200 ] := by decide
  have h4 : (run (initState false 0) reactivationTrace).lastKeyTime = 1200 := by decide
  refine ⟨h2, h3, h4, ?_⟩
  have h : run (initState false 0) (reactivationTrace ++ [ MEvent.keyDown 1300 ]) =
      step (run (initState false 0) reactivationTrace) (MEvent.keyDown 1300) := by
    rw [run, List.foldl_append]; rfl
  rw [h]
  simp only [step, h2, h3, h4, if_pos]
  norm_num [pushWindow, avgOf]

/-! ### Keystroke-window lemmas -/

theorem gapsOf_cons (a : ℤ) (l : List ℤ) (h : l ≠ []) :
    gapsOf (a :: l) = (l.headD 0 - a) :: gapsOf l := by
  cases l with
  | nil => simp at h
  | cons b r => rfl

theorem headD_append_singleton (l : List ℤ) (b t : ℤ) :
    ((l ++ [b]) ++ [t]).headD 0 = (l ++ [b]).headD 0 := by
  cases l with
  | nil => rfl
  | cons c r => rfl

theorem gapsOf_concat (l : List ℤ) (b t : ℤ) :
    gapsOf ((l ++ [b]) ++ [t]) = gapsOf (l ++ [b]) ++ [t - b] := by
  induction l with
  | nil => rfl
  | cons a r ih =>
    have hne : (r ++ [b]) ++ [t] ≠ [] := by simp
    have hne2 : r ++ [b] ≠ [] := by simp
    calc gapsOf (((a :: r) ++ [b]) ++ [t])
        = gapsOf (a :: ((r ++ [b]) ++ [t])) := by simp
      _ = (((r ++ [b]) ++ [t]).headD 0 - a) :: gapsOf ((r ++ [b]) ++ [t]) :=
          gapsOf_cons a _ hne
      _ = ((r ++ [b]).headD 0 - a) :: (gapsOf (r ++ [b]) ++ [t - b]) := by
          rw [headD_append_singleton, ih]
      _ = (((r ++ [b]).headD 0 - a) :: gapsOf (r ++ [b])) ++ [t - b] := by simp
      _ = gapsOf (a :: (r ++ [b])) ++ [t - b] := by rw [gapsOf_cons a _ hne2]
      _ = gapsOf ((a :: r) ++ [b]) ++ [t - b] := by simp

theorem gapsOf_length (ts : List ℤ) : (gapsOf ts).length = ts.length - 1 := by
  induction ts with
  | nil => rfl
  | cons a rest ih =>
    cases rest with
    | nil => rfl
    | cons b r =>
      have h : gapsOf (a :: b :: r) = (b - a) :: gapsOf (b :: r) := rfl
      rw [h, List.length_cons, ih]
      simp

theorem step_keyDown_active (s : MonitorState) (t : ℤ) (hact : s.isActive = true)
    (hlast : s.lastKeyTime ≠ 0) :
    step s (MEvent.keyDown t) =
      { s with lastKeyTime := t
               keyIntervals := pushWindow 10 s.keyIntervals (t - s.lastKeyTime)
               data := { s.data with
                 typingSpeed := avgOf (pushWindow 10 s.keyIntervals (t - s.lastKeyTime))
                 timestamp := t } } := by
  simp [step, hact, hlast]

theorem step_keyDown_first (s : MonitorState) (t : ℤ) (hact : s.isActive = true)
    (hlast : s.lastKeyTime = 0) :
    step s (MEvent.keyDown t) =
      { s with lastKeyTime := t
               data := { s.data with typingSpeed := avgOf s.keyIntervals
                                     timestamp := t } } := by
  simp [step, hact, hlast]

theorem runKeys_concat (ts : List ℤ) (t : ℤ) :
    runKeys (ts ++ [t]) = step (runKeys ts) (MEvent.keyDown t) := by
  rw [runKeys, runKeys, run, run, List.map_append, List.foldl_append]
  rfl

/-- Invariant of an active keystroke-only session with positive timestamps:
the last-key ref tracks the last timestamp, the window holds the last 10
gaps, and the published typing speed is the window mean. -/
theorem runKeys_invariant (ts : List ℤ) (hpos : ∀ t ∈ ts, 0 < t) :
    (runKeys ts).isActive = true ∧
    (runKeys ts).lastKeyTime = ts.getLastD 0 ∧
    (runKeys ts).keyIntervals = lastWindow 10 (gapsOf ts) ∧
    (runKeys ts).data.typingSpeed = avgOf (lastWindow 10 (gapsOf ts)) := by
  induction ts using List.reverseRecOn with
  | nil => exact ⟨rfl, rfl, rfl, rfl⟩
  | append_singleton xs t ih =>
    have hpos' : ∀ u ∈ xs, 0 < u := fun u hu => hpos u (by simp [hu])
    obtain ⟨hact, hlast, hints, hspeed⟩ := ih hpos'
    rw [runKeys_concat]
    rcases List.eq_nil_or_concat xs with hnil | ⟨ys, b, rfl⟩
    · subst hnil
      rw [step_keyDown_first _ t hact (by rw [hlast]; rfl)]
      refine ⟨hact, by simp [List.getLastD_concat], ?_, ?_⟩
      · rw [hints]; rfl
      · simp only [hspeed]; rfl
    · simp only [List.concat_eq_append] at hact hlast hints hspeed hpos' ⊢
      have hb : 0 < b := hpos' b (by simp)
      have hlast' : (runKeys (ys ++ [b])).lastKeyTime = b := by
        rw [hlast, List.getLastD_concat]
      rw [step_keyDown_active _ t hact (by rw [hlast']; omega)]
      have hwin : pushWindow 10 ((runKeys (ys ++ [b])).keyIntervals)
            (t - (runKeys (ys ++ [b])).lastKeyTime)
          = lastWindow 10 (gapsOf ((ys ++ [b]) ++ [t])) := by
        rw [hints, hlast', pushWindow_lastWindow 10 (by omega), gapsOf_concat]
      exact ⟨hact, by simp [List.getLastD_concat], by simpa using hwin,
        by simpa using congrArg avgOf hwin⟩

/-- C4 amended: after at least two keystrokes with positive timestamps,
the key-interval window holds the most recent min(10, count-1) gaps with
FIFO eviction (capacity 10, not 9), and typingSpeed is their arithmetic
mean. -/
theorem C4_keyInterval_mean (ts : List ℤ) (hpos : ∀ t ∈ ts, 0 < t)
    (hlen : 2 ≤ ts.length) :
    (runKeys ts).keyIntervals = lastWindow 10 (gapsOf ts) ∧
    (runKeys ts).keyIntervals.length = min 10 (ts.length - 1) ∧
    (runKeys ts).data.typingSpeed =
      ((lastWindow 10 (gapsOf ts)).sum : ℚ) / ((min 10 (ts.length - 1) : ℕ) : ℚ) := by
  obtain ⟨hact, hlast, hints, hspeed⟩ := runKeys_invariant ts hpos
  have hl : (lastWindow 10 (gapsOf ts)).length = min 10 (ts.length - 1) := by
    rw [lastWindow_length, gapsOf_length]
  have hlpos : 0 < (lastWindow 10 (gapsOf ts)).length := by rw [hl]; omega
  refine ⟨hints, by rw [hints, hl], ?_⟩
  rw [hspeed, avgOf, if_pos hlpos, hl]

/-- C4 witness: two keystrokes at times 1 and 2 give one gap and mean 1. -/
theorem C4_keyInterval_mean_witness :
    (runKeys [ 1, 2 ]).keyIntervals = lastWindow 10 (gapsOf [ 1, 2 ]) ∧
    (runKeys [ 1, 2 ]).keyIntervals.length = min 10 ([ (1:ℤ), 2 ].length - 1) ∧
    (runKeys [ 1, 2 ]).data.typingSpeed =
      ((lastWindow 10 (gapsOf [ 1, 2 ])).sum : ℚ) /
        ((min 10 ([ (1:ℤ), 2 ].length - 1) : ℕ) : ℚ) :=
  C4_keyInterval_mean [ 1, 2 ] (by decide) (by decide)

/-- C4 counterexample: after eleven keystrokes with gaps 1..10 the window
holds all ten gaps and typingSpeed is their mean 5.5, not the mean 6 of only
the most recent min(9, count-1) = 9 gaps that the claim asserts. -/
theorem C4_min9_counterexample :
    (runKeys [ 1, 2, 4, 7, 11, 16, 22, 29, 37, 46, 56 ]).data.typingSpeed = 11/2 ∧
    avgOf (lastWindow 9 (gapsOf [ 1, 2, 4, 7, 11, 16, 22, 29, 37, 46, 56 ])) = 6 ∧
    ¬ ((runKeys [ 1, 2, 4, 7, 11, 16, 22, 29, 37, 46, 56 ]).data.typingSpeed =
        avgOf (lastWindow 9 (gapsOf [ 1, 2, 4, 7, 11, 16, 22, 29, 37, 46, 56 ]))) := by
  obtain ⟨-, -, -, hspeed⟩ :=
    runKeys_invariant [ 1, 2, 4, 7, 11, 16, 22, 29, 37, 46, 56 ] (by decide)
  have hg : gapsOf [ (1:ℤ), 2, 4, 7, 11, 16, 22, 29, 37, 46, 56 ] =
      [ 1, 2, 3, 4, 5, 6, 7, 8, 9, 10 ] := by decide
  have hw10 : lastWindow 10 [ (1:ℤ), 2, 3, 4, 5, 6, 7, 8, 9, 10 ] =
      [ 1, 2, 3, 4, 5, 6, 7, 8, 9, 10 ] := by decide
  have hw9 : lastWindow 9 [ (1:ℤ), 2, 3, 4, 5, 6, 7, 8, 9, 10 ] =
      [ 2, 3, 4, 5, 6, 7, 8, 9, 10 ] := by decide
  have h1 : (runKeys [ 1, 2, 4, 7, 11, 16, 22, 29, 37, 46, 56 ]).data.typingSpeed = 11/2 := by
    rw [hspeed, hg, hw10]
    norm_num [avgOf]
  have h2 : avgOf (lastWindow 9 (gapsOf [ 1, 2, 4, 7, 11, 16, 22, 29, 37, 46, 56 ])) = 6 := by
    rw [hg, hw9]
    norm_num [avgOf]
  refine ⟨h1, h2, ?_⟩
  rw [h1, h2]
  norm_num

/-! ### Pointer-window lemmas -/

theorem stepLens_eq_spec (ps : List Point) : stepLens ps = specStepLens ps := by
  induction ps with
  | nil => rfl
  | cons p rest ih =>
    cases rest with
    | nil => rfl
    | cons q r =>
      have h1 : stepLens (p :: q :: r) = stepLen p q :: stepLens (q :: r) := rfl
      have h2 : specStepLens (p :: q :: r) = stepLen p q :: specStepLens (q :: r) := rfl
      rw [h1, h2, ih]

theorem jitterOf_eq_meanAbsDev (ps : List Point) (h : 2 < ps.length) :
    jitterOf ps = meanAbsDev (specStepLens ps) := by
  rw [jitterOf, if_pos h, ← stepLens_eq_spec, meanAbsDev]

theorem step_mouseMove_active (s : MonitorState) (x y : ℚ) (now : ℤ)
    (hact : s.isActive = true) :
    step s (MEvent.mouseMove x y now) =
      { s with mousePositions := pushWindow 20 s.mousePositions { x := x, y := y }
               data := { s.data with
                 mouseJitter := jitterOf (pushWindow 20 s.mousePositions { x := x, y := y })
                 timestamp := now } } := by
  simp [step, hact]

theorem runMouse_concat (ps : List (ℚ × ℚ)) (q : ℚ × ℚ) :
    runMouse (ps ++ [q]) = step (runMouse ps) (MEvent.mouseMove q.1 q.2 0) := by
  rw [runMouse, runMouse, run, run, List.map_append, List.foldl_append]
  rfl

/-- Invariant of an active pointer-only session: the window holds the last
20 positions and the published jitter is the jitter of the current window. -/
theorem runMouse_invariant (ps : List (ℚ × ℚ)) :
    (runMouse ps).isActive = true ∧
    (runMouse ps).mousePositions =
      lastWindow 20 (ps.map (fun p => Point.mk p.1 p.2)) ∧
    (runMouse ps).data.mouseJitter = jitterOf ((runMouse ps).mousePositions) := by
  induction ps using List.reverseRecOn with
  | nil =>
    refine ⟨rfl, rfl, ?_⟩
    simp [runMouse, run, initState, jitterOf]
  | append_singleton xs q ih =>
    obtain ⟨hact, hpos, hjit⟩ := ih
    rw [runMouse_concat, step_mouseMove_active _ _ _ _ hact]
    refine ⟨hact, ?_, rfl⟩
    rw [hpos, List.map_append, pushWindow_lastWindow 20 (by omega)]
    rfl

/-- C5: after any pointer-event sequence, mouseJitter is 0 when the window
holds fewer than 3 positions, and otherwise equals the mean absolute
deviation of the Euclidean step lengths between consecutive window positions
from the mean of those step lengths. -/
theorem C5_jitter_mad (ps : List (ℚ × ℚ)) :
    ((runMouse ps).mousePositions.length < 3 → (runMouse ps).data.mouseJitter = 0) ∧
    (3 ≤ (runMouse ps).mousePositions.length →
      (runMouse ps).data.mouseJitter =
        meanAbsDev (specStepLens (runMouse ps).mousePositions)) := by
  obtain ⟨-, -, hjit⟩ := runMouse_invariant ps
  constructor
  · intro h
    rw [hjit, jitterOf, if_neg (by omega)]
  · intro h
    rw [hjit, jitterOf_eq_meanAbsDev _ (by omega)]

/-- C5 witness: three collinear positions keep the window at length 3 and the
published jitter equals the mean absolute deviation of the two step
lengths. -/
theorem C5_jitter_mad_witness :
    3 ≤ (runMouse [ ((0:ℚ), (0:ℚ)), (3, 0), (4, 0) ]).mousePositions.length ∧
    (runMouse [ ((0:ℚ), (0:ℚ)), (3, 0), (4, 0) ]).data.mouseJitter =
      meanAbsDev (specStepLens
        (runMouse [ ((0:ℚ), (0:ℚ)), (3, 0), (4, 0) ]).mousePositions) := by
  have hlen : 3 ≤ (runMouse [ ((0:ℚ), (0:ℚ)), (3, 0), (4, 0) ]).mousePositions.length := by
    decide
  exact ⟨hlen, (C5_jitter_mad _).2 hlen⟩

end PhishGuard
